import Mathlib

/-!
Verification of the shadowfax reload control plane against its specification.

The Go sources are embedded shallowly:
* `internal/server/heartbeat.go` — the heartbeat failure-counting state machine
  (`heartbeatState`, `newHeartbeatState`, `Observe`, `Reset`);
* `internal/reload/broadcaster.go` — the debounced pub/sub broadcaster
  (`Broadcaster`, `Subscribe`, `Unsubscribe`, `Broadcast`, `ListenerCount`);
* `internal/proxy/injection.go` — script injection and stylesheet href rewriting
  (`InjectScript`, `RewriteStylesheetHrefs`, `rewriteStylesheetHref`,
  `normalizeAssetPathForRewrite`, `stripCacheBusterSegment`);
* `internal/proxy/proxy.go` — local asset resolution (`resolveLocalAssetPath`,
  `isCacheBusterSegment`).

Go strings / byte slices are modelled as `List Char` (all relevant inputs are
ASCII), Go `int` as `Int`, wall-clock instants as integer milliseconds, and the
filesystem (`os.Stat`) as an oracle function passed in explicitly.
-/

/-! ## Heartbeat state machine (internal/server/heartbeat.go) -/

/-- Result pair of `heartbeatState.Observe`. -/
structure ObserveResult where
  restart : Bool
  recovered : Bool
deriving Repr, DecidableEq

/-- The heartbeat failure counter, from `internal/server/heartbeat.go`. -/
structure heartbeatState where
  failureThreshold : Int
  consecutiveFails : Int
deriving Repr, DecidableEq

/-- `newHeartbeatState`: thresholds `≤ 0` are coerced to 1; the counter starts at 0. -/
def newHeartbeatState (failureThreshold : Int) : heartbeatState :=
  if failureThreshold ≤ 0 then
    { failureThreshold := 1, consecutiveFails := 0 }
  else
    { failureThreshold := failureThreshold, consecutiveFails := 0 }

/-- `Observe`: on healthy, report recovery iff the counter was positive and reset it;
on unhealthy, increment the counter, and when it reaches the threshold report
restart and reset to 0. Returns the result together with the updated state. -/
def heartbeatState.Observe (h : heartbeatState) (healthy : Bool) :
    ObserveResult × heartbeatState :=
  if healthy then
    ({ restart := false, recovered := h.consecutiveFails > 0 },
     { h with consecutiveFails := 0 })
  else
    let c := h.consecutiveFails + 1
    if c ≥ h.failureThreshold then
      ({ restart := true, recovered := false }, { h with consecutiveFails := 0 })
    else
      ({ restart := false, recovered := false }, { h with consecutiveFails := c })

/-- `Reset`: force the counter back to 0. -/
def heartbeatState.Reset (h : heartbeatState) : heartbeatState :=
  { h with consecutiveFails := 0 }

/-- State after `k` consecutive `Observe(false)` calls. -/
def observeFailsN (h : heartbeatState) : Nat → heartbeatState
  | 0 => h
  | n + 1 => ((observeFailsN h n).Observe false).2

/-- The `restart` flag returned by the `k`-th consecutive `Observe(false)` call
(1-based) starting from `h0`. -/
def restartOnFailCall (h0 : heartbeatState) (k : Nat) : Bool :=
  ((observeFailsN h0 (k - 1)).Observe false).1.restart

/-! ## Debounced broadcaster (internal/reload/broadcaster.go)

Each Go subscriber channel (capacity 1) is modelled as a pair of a numeric
channel identity and a Bool mailbox flag (`true` = an undelivered signal sits in
the buffer). `nextId` models the freshness of newly allocated channels.
Wall-clock time is explicit: `Broadcast` takes the value of `time.Now()` in
milliseconds; `lastBroadcast` starts at the zero time, which for any realistic
`now` lies further than the debounce window in the past. -/

/-- The reload broadcaster, from `internal/reload/broadcaster.go`. -/
structure Broadcaster where
  listeners : List (Nat × Bool)
  nextId : Nat
  lastBroadcast : Int
  debounceTime : Int
deriving Repr, DecidableEq

/-- `NewBroadcaster`: empty listener map, 50 ms debounce. -/
def NewBroadcaster : Broadcaster :=
  { listeners := [], nextId := 0, lastBroadcast := 0, debounceTime := 50 }

/-- `Subscribe`: allocate a fresh capacity-1 channel with an empty mailbox,
register it, and return its handle. -/
def Broadcaster.Subscribe (b : Broadcaster) : Nat × Broadcaster :=
  (b.nextId,
   { b with listeners := b.listeners ++ [(b.nextId, false)], nextId := b.nextId + 1 })

/-- The membership test `_, ok := b.listeners[ch]`. -/
def Broadcaster.registered (b : Broadcaster) (ch : Nat) : Bool :=
  b.listeners.any (fun l => l.1 = ch)

/-- `Unsubscribe`: if the channel is registered, deregister it (and close it);
otherwise do nothing. The membership guard is what makes a second call a no-op
rather than a double close. -/
def Broadcaster.Unsubscribe (b : Broadcaster) (ch : Nat) : Broadcaster :=
  if b.registered ch then
    { b with listeners := b.listeners.filter (fun l => l.1 ≠ ch) }
  else
    b

/-- `Broadcast` at wall-clock instant `now`: inside the debounce window it is a
no-op; otherwise it records `now` and performs a non-blocking send to every
listener (an empty mailbox is filled, a full one is skipped). Returns the new
state and the list of channel ids that actually received the signal. -/
def Broadcaster.Broadcast (b : Broadcaster) (now : Int) : Broadcaster × List Nat :=
  if now - b.lastBroadcast < b.debounceTime then
    (b, [])
  else
    let delivered := (b.listeners.filter (fun l => !l.2)).map (fun l => l.1)
    ({ b with lastBroadcast := now, listeners := b.listeners.map (fun l => (l.1, true)) },
     delivered)

/-- `ListenerCount`: number of registered subscribers. -/
def Broadcaster.ListenerCount (b : Broadcaster) : Nat :=
  b.listeners.length

/-- Models the subscriber side: a non-blocking receive on channel `ch`, emptying
its mailbox. Returns the new state and whether a signal was consumed. -/
def Broadcaster.drain (b : Broadcaster) (ch : Nat) : Broadcaster × Bool :=
  match b.listeners.find? (fun l => l.1 = ch) with
  | some l =>
      ({ b with listeners := b.listeners.map (fun x => if x.1 = ch then (x.1, false) else x) },
       l.2)
  | none => (b, false)

/-- A broadcaster holding exactly one subscribed listener `c` with a drained
mailbox, debounce 50 ms, whose last effective broadcast was at `last`. -/
def singleListener (c : Nat) (n : Nat) (last : Int) : Broadcaster :=
  { listeners := [(c, false)], nextId := n, lastBroadcast := last, debounceTime := 50 }

/-! ## Byte-string helpers

Go strings and byte slices are modelled as `List Char`; the helpers below embed
the `strings` / `bytes` standard-library calls the proxy code uses. All hrefs,
tags and path segments involved are ASCII, so `Char.toLower` and `Char.isDigit`
coincide with the Go unicode versions on every input considered here. -/

/-- `bytes.ToLower` / `strings.ToLower` (ASCII). -/
def toLowerL (s : List Char) : List Char := s.map Char.toLower

/-- `bytes.Index` / `strings.Index`: index of the first occurrence of `pat`,
`none` when absent. -/
def firstIdxOf (pat : List Char) : List Char → Option Nat
  | [] => if pat.isEmpty then some 0 else none
  | c :: rest =>
      if pat.isPrefixOf (c :: rest) then some 0
      else (firstIdxOf pat rest).map (· + 1)

/-- `strings.Contains`. -/
def containsL (s pat : List Char) : Bool := (firstIdxOf pat s).isSome

/-- `strings.IndexAny`: index of the first character drawn from `chars`. -/
def indexAnyL (chars : List Char) : List Char → Option Nat
  | [] => none
  | c :: rest => if c ∈ chars then some 0 else (indexAnyL chars rest).map (· + 1)

/-- `strings.TrimPrefix`. -/
def trimPrefixL (pre s : List Char) : List Char :=
  if pre.isPrefixOf s then s.drop pre.length else s

/-- `strings.Trim(s, "/")`: drop leading and trailing occurrences of `c`. -/
def trimCharAllL (c : Char) (s : List Char) : List Char :=
  ((s.dropWhile (· = c)).reverse.dropWhile (· = c)).reverse

/-- `strings.Split(s, "/")`. -/
def splitSlashL : List Char → List (List Char)
  | [] => [[]]
  | c :: rest =>
      match splitSlashL rest with
      | [] => [[]]
      | h :: t => if c = '/' then [] :: h :: t else (c :: h) :: t

/-- `strings.Replace(s, old, new, 1)`: replace the first occurrence of `old`. -/
def replaceFirst (old new : List Char) : List Char → List Char
  | [] => if old.isPrefixOf [] then new else []
  | c :: rest =>
      if old.isPrefixOf (c :: rest) then new ++ (c :: rest).drop old.length
      else c :: replaceFirst old new rest

/-! ## Script injection (internal/proxy/injection.go) -/

/-- The `HotReloadScript` constant: the inline reload client injected into every
HTML response. -/
def hotReloadScript : String :=
  "<script>\n(function() \x7b\n  var protocol = window.location.protocol === \x27https:\x27 ? \x27wss:\x27 : \x27ws:\x27;\n  var wsUrl = protocol + \x27//\x27 + window.location.host + \x27/__shadowfax/events\x27;\n  var reconnectDelay = 1000;\n  var maxReconnectDelay = 5000;\n\n  function connect() \x7b\n    var ws = new WebSocket(wsUrl);\n\n    ws.onopen = function() \x7b\n      console.log(\x27[shadowfax] Connected to hot reload server\x27);\n      reconnectDelay = 1000;\n    \x7d;\n\n    ws.onmessage = function(event) \x7b\n      if (event.data === \x27r\x27) \x7b\n        console.log(\x27[shadowfax] Reloading page...\x27);\n        window.location.reload();\n      \x7d\n    \x7d;\n\n    ws.onclose = function() \x7b\n      console.log(\x27[shadowfax] Connection closed, reconnecting in \x27 + reconnectDelay + \x27ms\x27);\n      setTimeout(function() \x7b\n        reconnectDelay = Math.min(reconnectDelay * 1.5, maxReconnectDelay);\n        connect();\n      \x7d, reconnectDelay);\n    \x7d;\n\n    ws.onerror = function(err) \x7b\n      console.log(\x27[shadowfax] WebSocket error:\x27, err);\n      ws.close();\n    \x7d;\n  \x7d\n\n  connect();\n\x7d)();\n</script>"

/-- The reload client script as a byte string. -/
def hotReloadScriptL : List Char := hotReloadScript.toList

/-- The closing head tag searched for by `InjectScript`. -/
def headTagL : List Char := "</head>".toList

/-- The closing body tag searched for by `InjectScript`. -/
def bodyTagL : List Char := "</body>".toList

/-- `InjectScript`: splice the reload client immediately before the first
case-insensitive `</head>`, else before the first `</body>`, else append. -/
def InjectScript (content : List Char) : List Char :=
  match firstIdxOf headTagL (toLowerL content) with
  | some i => content.take i ++ hotReloadScriptL ++ content.drop i
  | none =>
      match firstIdxOf bodyTagL (toLowerL content) with
      | some i => content.take i ++ hotReloadScriptL ++ content.drop i
      | none => content ++ hotReloadScriptL

/-! ## Stylesheet href rewriting (internal/proxy/injection.go) -/

/-- The literal `"/assets/"`. -/
def slashAssetsPre : List Char := "/assets/".toList

/-- The literal `"assets/"`. -/
def assetsPre : List Char := "assets/".toList

/-- The literal `"/__shadowfax/assets/"`, the local-assets prefix. -/
def shadowAssetsPre : List Char := "/__shadowfax/assets/".toList

/-- `isCacheBusterSegment` (internal/proxy/proxy.go): a non-empty, all-digit
path segment of length at least 6. -/
def isCacheBusterSegment (part : List Char) : Bool :=
  if part = [] then false
  else (part.all fun c => c.isDigit) && decide (part.length ≥ 6)

/-- `stripCacheBusterSegment`: inside a path of shape `pre ++ rest`, drop the
first interior cache-buster segment (never the first or last segment),
preserving a trailing slash. -/
def stripCacheBusterSegment (path pre : List Char) : List Char :=
  let rest := trimPrefixL pre path
  let parts := splitSlashL (trimCharAllL '/' rest)
  if parts.length < 3 then path
  else
    match (List.range parts.length).find?
        (fun i => decide (1 ≤ i) && decide (i < parts.length - 1) &&
          isCacheBusterSegment (parts.getD i [])) with
    | some i =>
        let trimmed := parts.take i ++ parts.drop (i + 1)
        if ['/'].isSuffixOf path then pre ++ List.intercalate ['/'] trimmed ++ ['/']
        else pre ++ List.intercalate ['/'] trimmed
    | none => path

/-- `normalizeAssetPathForRewrite`: strip a cache-buster segment under either
assets prefix. -/
def normalizeAssetPathForRewrite (path : List Char) : List Char :=
  if slashAssetsPre.isPrefixOf path then stripCacheBusterSegment path slashAssetsPre
  else if assetsPre.isPrefixOf path then stripCacheBusterSegment path assetsPre
  else path

/-- `rewriteStylesheetHref`: rewrite a same-origin asset href to the
local-assets prefix; `none` means "do not rewrite" (the Go `ok=false` return). -/
def rewriteStylesheetHref (href : List Char) : Option (List Char) :=
  let lowerHref := toLowerL href
  if ("http://").toList.isPrefixOf lowerHref || ("https://").toList.isPrefixOf lowerHref ||
      ("//").toList.isPrefixOf lowerHref || ("data:").toList.isPrefixOf lowerHref then
    none
  else
    let cut := indexAnyL ['?', '#'] href
    let pathPart := match cut with | some i => href.take i | none => href
    let suffix := match cut with | some i => href.drop i | none => []
    if pathPart = [] then none
    else
      let normalized := normalizeAssetPathForRewrite (trimPrefixL ("./").toList pathPart)
      if shadowAssetsPre.isPrefixOf normalized then none
      else if slashAssetsPre.isPrefixOf normalized then
        some (("/__shadowfax").toList ++ normalized ++ suffix)
      else if assetsPre.isPrefixOf normalized then
        some (("/__shadowfax/").toList ++ normalized ++ suffix)
      else none

/-! ## The stylesheet link-tag matcher

`RewriteStylesheetHrefs` drives the fixed regular expression

  (?is)<link\b[^>]*\bhref\s*=\s*["...]([^"...]+)["...][^>]*>

over the content with `ReplaceAllFunc`. The matcher below embeds exactly this
pattern with the leftmost, greedy (preferring a longer `[^>]*`), backtracking
match semantics of the Go regexp package: after the case-insensitive literal
`<link` and a word boundary, the candidate positions for `href` (each preceded
by a non-word character and reachable without crossing a `>`) are tried
longest-prefix-first; the remainder of the pattern is deterministic because the
character classes `\s`, `["...]` and `[^"...]` are disjoint from the literals
that follow them. -/

/-- Go regexp `\w` (ASCII word character). -/
def isWordChar (c : Char) : Bool := c.isAlphanum || c = '_'

/-- Go regexp `\s`, which is the set tab, newline, form feed, carriage return,
space. -/
def isSpaceRE (c : Char) : Bool :=
  c = '\t' || c = '\n' || c = '\x0c' || c = '\r' || c = ' '

/-- The character class of the two quote characters. -/
def isQuoteChar (c : Char) : Bool := c = '"' || c = Char.ofNat 39

/-- Case-insensitive literal match returning the rest of the input. -/
def matchLitCI : List Char → List Char → Option (List Char)
  | [], s => some s
  | _ :: _, [] => none
  | l :: ls, c :: cs => if l.toLower = c.toLower then matchLitCI ls cs else none

/-- The literal `href`. -/
def hrefLit : List Char := "href".toList

/-- The literal `<link`. -/
def linkLit : List Char := "<link".toList

/-- Deterministic tail of the pattern after the chosen `href`:
whitespace, `=`, whitespace, a quote, the captured value (one or more
non-quote characters), a quote, then non-`>` characters up to a `>`.
Returns the captured href value and the input following the match. -/
def afterHref (u : List Char) : Option (List Char × List Char) :=
  match u.dropWhile isSpaceRE with
  | '=' :: u2 =>
      match u2.dropWhile isSpaceRE with
      | q :: u4 =>
          if isQuoteChar q then
            let v := u4.takeWhile (fun c => !isQuoteChar c)
            if v = [] then none
            else
              match u4.drop v.length with
              | q2 :: u6 =>
                  if isQuoteChar q2 then
                    match u6.dropWhile (fun c => c ≠ '>') with
                    | '>' :: u8 => some (v, u8)
                    | _ => none
                  else none
              | [] => none
          else none
      | [] => none
  | _ => none

/-- Backtracking search for the `href` attribute: `prev` is the character just
before the current position (for the `\b` test); later candidates are
preferred, and the search cannot advance past a `>`. -/
def scanHref : Char → List Char → Option (List Char × List Char)
  | _, [] => none
  | prev, c :: rest =>
      let here :=
        if isWordChar prev then none
        else
          match matchLitCI hrefLit (c :: rest) with
          | some u => afterHref u
          | none => none
      let deeper := if c = '>' then none else scanHref c rest
      deeper <|> here

/-- Try to match the link-tag pattern at the head of `s`. On success returns
the matched span, the captured href value, and the rest of the input. -/
def matchLinkAt (s : List Char) : Option (List Char × List Char × List Char) :=
  match matchLitCI linkLit s with
  | none => none
  | some t =>
      match t with
      | [] => none
      | c :: _ =>
          if isWordChar c then none
          else
            match scanHref 'k' t with
            | some (v, rest) => some (s.take (s.length - rest.length), v, rest)
            | none => none

/-- The `ReplaceAllFunc` callback in `RewriteStylesheetHrefs`: keep the tag
unless it mentions `rel=` and `stylesheet`; re-extract the href submatch
(`FindSubmatch` re-runs the same pattern on the matched span, which starts with
a match at position 0); rewrite it; and substitute the rewritten href for the
first occurrence of the old href value inside the tag. -/
def rewriteTagFunc (matched : List Char) : List Char :=
  let lowerTag := toLowerL matched
  if !containsL lowerTag ("rel=").toList || !containsL lowerTag ("stylesheet").toList then
    matched
  else
    match matchLinkAt matched with
    | none => matched
    | some (_, v, _) =>
        match rewriteStylesheetHref v with
        | none => matched
        | some rewritten => replaceFirst v rewritten matched

/-- Leftmost, non-overlapping scan of `ReplaceAllFunc`. Each match consumes at
least one character, so `content.length` is enough fuel. -/
def replaceAllLinkTags : Nat → List Char → List Char
  | 0, s => s
  | _ + 1, [] => []
  | fuel + 1, c :: rest =>
      match matchLinkAt (c :: rest) with
      | some (matched, _, after) => rewriteTagFunc matched ++ replaceAllLinkTags fuel after
      | none => c :: replaceAllLinkTags fuel rest

/-- `RewriteStylesheetHrefs`: rewrite the href of every stylesheet link tag. -/
def RewriteStylesheetHrefs (content : List Char) : List Char :=
  replaceAllLinkTags content.length content

/-! ## Local asset resolution (internal/proxy/proxy.go)

Absolute on-disk paths are modelled as lists of path segments (the project root
comes from `os.Getwd`, hence is absolute and clean). `filepath.Clean` /
`filepath.Join` on absolute paths become `cleanAbsSegs` over the concatenated
segment lists, and `filepath.Rel` between two clean absolute paths becomes the
lexical `relSegs`. `os.Stat` is an oracle: `none` models a stat error, `some d`
an existing entry with `IsDir() = d`. -/

/-- One step of `filepath.Clean` on an absolute path: drop empty and `.`
segments, let `..` pop the previous segment (or vanish at the root). -/
def cleanStep (acc : List (List Char)) (s : List Char) : List (List Char) :=
  if s = [] ∨ s = ['.'] then acc
  else if s = ['.', '.'] then acc.dropLast
  else acc ++ [s]

/-- `filepath.Clean` of an absolute path given as raw segments. -/
def cleanAbsSegs (segs : List (List Char)) : List (List Char) :=
  segs.foldl cleanStep []

/-- `filepath.Rel(base, targ)` for two clean absolute paths: strip the common
prefix, then one `..` per remaining base segment followed by the remaining
target segments (the empty result renders as `.`). -/
def relSegs : List (List Char) → List (List Char) → List (List Char)
  | [], ts => ts
  | b :: bs, [] => List.replicate (b :: bs).length ['.', '.']
  | b :: bs, t :: ts =>
      if b = t then relSegs bs ts
      else List.replicate (b :: bs).length ['.', '.'] ++ (t :: ts)

/-- The literal `assets` directory name. -/
def assetsSeg : List Char := "assets".toList

/-- The candidate variants with one interior cache-buster segment removed
(the loop body over `parts` in `resolveLocalAssetPath`). -/
def busterVariants (parts : List (List Char)) : List (List Char) :=
  if parts.length ≥ 3 then
    ((List.range parts.length).filter
        (fun i => decide (1 ≤ i) && decide (i < parts.length - 1) &&
          isCacheBusterSegment (parts.getD i []))).map
      (fun i => List.intercalate ['/'] (parts.take i ++ parts.drop (i + 1)))
  else []

/-- `Server.resolveLocalAssetPath`: resolve the request path below the
local-assets prefix against `projectRoot/assets`, trying the literal path and
every cache-buster-stripped variant; reject any candidate whose cleaned
resolution escapes the assets root (relative form `..` or starting `../`);
serve the first candidate that stats as an existing non-directory. -/
def resolveLocalAssetPath (stat : List (List Char) → Option Bool)
    (projectRoot : List (List Char)) (assetRelativePath : List Char) :
    Option (List (List Char)) :=
  let assetsRoot := cleanAbsSegs (projectRoot ++ [assetsSeg])
  let parts := splitSlashL (trimCharAllL '/' assetRelativePath)
  let candidates := assetRelativePath :: busterVariants parts
  candidates.findSome? fun candidate =>
    let localPath := cleanAbsSegs (assetsRoot ++ splitSlashL candidate)
    if (relSegs assetsRoot localPath).head? = some ['.', '.'] then none
    else
      match stat localPath with
      | some false => some localPath
      | _ => none

/-! ## Upstream-unavailable fallback page -/

/-- A synthetic HTTP response: status code, content type and body. -/
structure SyntheticResponse where
  status : Nat
  contentType : String
  body : String
deriving Repr, DecidableEq

/-- Modelled from the spec: the reverse-proxy error handler for a failed
upstream connection is not present under src (only its test,
`TestProxyUnavailableReturnsAutoRetryPage`, and spec section 4.4 describe it).
Per the spec it must return a synthetic HTML page with status 503 containing a
short human message and an embedded script that reloads the page after a short
delay; the test additionally fixes the message text `App restarting...` and the
use of `window.location.reload()`. -/
def upstreamUnavailableResponse : SyntheticResponse :=
  { status := 503
    contentType := "text/html; charset=utf-8"
    body := "<!DOCTYPE html>\n<html>\n<head>\n<title>App restarting...</title>\n<script>\nsetTimeout(function() \x7b window.location.reload(); \x7d, 1000);\n</script>\n</head>\n<body>\n<p>App restarting...</p>\n</body>\n</html>\n" }

/-- `strings.Contains` on `String`. -/
def containsStr (s pat : String) : Bool := containsL s.toList pat.toList

/-! # Theorems -/

/-! ## Heartbeat (C1, C2) -/

theorem succMod (N k : Nat) (h : 0 < N) :
    (k + 1) % N = if k % N + 1 = N then 0 else k % N + 1 := by
  have hlt : k % N < N := Nat.mod_lt _ h
  by_cases hc : k % N + 1 = N
  · rw [if_pos hc, ← Nat.mod_add_mod, hc, Nat.mod_self]
  · rw [if_neg hc, ← Nat.mod_add_mod, Nat.mod_eq_of_lt (by omega)]

theorem observeFails_closed (N : Nat) (hN : 1 ≤ N) (k : Nat) :
    observeFailsN (newHeartbeatState (N : Int)) k =
      { failureThreshold := (N : Int), consecutiveFails := ((k % N : Nat) : Int) } := by
  induction k with
  | zero =>
      have h0 : ¬((N : Int) ≤ 0) := by omega
      simp [observeFailsN, newHeartbeatState, h0]
  | succ k ih =>
      have hNpos : 0 < N := hN
      have hlt : k % N < N := Nat.mod_lt _ hNpos
      rw [observeFailsN, ih]
      unfold heartbeatState.Observe
      rw [succMod N k hNpos, if_neg Bool.false_ne_true]
      dsimp only
      by_cases hc : k % N + 1 = N
      · rw [if_pos hc]
        split
        · simp
        · rename_i hcond
          exact absurd (show ((k % N : Nat) : Int) + 1 ≥ (N : Int) by exact_mod_cast hc.ge) hcond
      · rw [if_neg hc]
        split
        · rename_i hcond
          have : N ≤ k % N + 1 := by exact_mod_cast hcond
          omega
        · simp

theorem restart_formula (N : Nat) (hN : 1 ≤ N) (k : Nat) :
    restartOnFailCall (newHeartbeatState (N : Int)) k = decide (N ≤ (k - 1) % N + 1) := by
  unfold restartOnFailCall
  rw [observeFails_closed N hN]
  unfold heartbeatState.Observe
  rw [if_neg Bool.false_ne_true]
  dsimp only
  split
  · rename_i h
    have : N ≤ (k - 1) % N + 1 := by exact_mod_cast h
    simp [this]
  · rename_i h
    have : ¬(N ≤ (k - 1) % N + 1) := fun hcon => h (by exact_mod_cast hcon)
    simp [this]

/-- C1: for every failure threshold N ≥ 1, starting from a fresh heartbeat
state, consecutive unhealthy observations return restart=false on calls 1..N-1,
restart=true exactly on call N, leave the counter at 0 afterwards, return
restart=false on calls N+1..2N-1, and restart=true again exactly on call 2N. -/
theorem heartbeat_threshold_cycle (N : Nat) (hN : 1 ≤ N) :
    (∀ k, 1 ≤ k → k < N → restartOnFailCall (newHeartbeatState (N : Int)) k = false) ∧
    restartOnFailCall (newHeartbeatState (N : Int)) N = true ∧
    (observeFailsN (newHeartbeatState (N : Int)) N).consecutiveFails = 0 ∧
    (∀ k, N < k → k < 2 * N → restartOnFailCall (newHeartbeatState (N : Int)) k = false) ∧
    restartOnFailCall (newHeartbeatState (N : Int)) (2 * N) = true := by
  refine ⟨?_, ?_, ?_, ?_, ?_⟩
  · intro k hk1 hkN
    rw [restart_formula N hN k]
    have h1 : (k - 1) % N = k - 1 := Nat.mod_eq_of_lt (by omega)
    simp only [h1, decide_eq_false_iff_not]
    omega
  · rw [restart_formula N hN N]
    have h1 : (N - 1) % N = N - 1 := Nat.mod_eq_of_lt (by omega)
    simp only [h1, decide_eq_true_eq]
    omega
  · rw [observeFails_closed N hN]
    simp
  · intro k hkN hk2N
    rw [restart_formula N hN k]
    have h1 : (k - 1) % N = k - 1 - N := by
      rw [Nat.mod_eq_sub_mod (by omega), Nat.mod_eq_of_lt (by omega)]
    simp only [h1, decide_eq_false_iff_not]
    omega
  · rw [restart_formula N hN (2 * N)]
    have h1 : (2 * N - 1) % N = 2 * N - 1 - N := by
      rw [Nat.mod_eq_sub_mod (by omega), Nat.mod_eq_of_lt (by omega)]
    simp only [h1, decide_eq_true_eq]
    omega

/-- Witness for C1 at threshold N = 3: no restart on calls 2 and 4, restart on
calls 3 and 6, counter 0 after call 3. -/
theorem heartbeat_threshold_cycle_witness :
    restartOnFailCall (newHeartbeatState ((3 : Nat) : Int)) 2 = false ∧
    restartOnFailCall (newHeartbeatState ((3 : Nat) : Int)) 3 = true ∧
    (observeFailsN (newHeartbeatState ((3 : Nat) : Int)) 3).consecutiveFails = 0 ∧
    restartOnFailCall (newHeartbeatState ((3 : Nat) : Int)) 4 = false ∧
    restartOnFailCall (newHeartbeatState ((3 : Nat) : Int)) 6 = true := by
  have h := heartbeat_threshold_cycle 3 (by decide)
  exact ⟨h.1 2 (by decide) (by decide), h.2.1, h.2.2.1,
    h.2.2.2.1 4 (by decide) (by decide), h.2.2.2.2⟩

/-- C2: a healthy observation reports recovered exactly when the counter was
positive, never requests a restart, and resets the counter; and a construction
threshold ≤ 0 yields literally the same state machine as threshold 1, which
restarts on the first unhealthy observation. -/
theorem heartbeat_healthy_and_threshold_coercion :
    (∀ h : heartbeatState,
      (h.Observe true).1.recovered = decide (h.consecutiveFails > 0) ∧
      (h.Observe true).1.restart = false ∧
      (h.Observe true).2.consecutiveFails = 0) ∧
    (∀ t : Int, t ≤ 0 →
      newHeartbeatState t = newHeartbeatState 1 ∧
      ((newHeartbeatState t).Observe false).1.restart = true) := by
  constructor
  · intro h
    unfold heartbeatState.Observe
    simp
  · intro t ht
    have h1 : newHeartbeatState t = newHeartbeatState 1 := by
      unfold newHeartbeatState
      rw [if_pos ht, if_neg (by omega)]
    refine ⟨h1, ?_⟩
    rw [h1]
    decide

/-- Witness for C2: threshold -5 builds the same machine as threshold 1 and
restarts on the first failure; a healthy observation at counter 2 reports
recovered. -/
theorem heartbeat_healthy_witness :
    newHeartbeatState (-5) = newHeartbeatState 1 ∧
    ((heartbeatState.mk 3 2).Observe true).1.recovered = true ∧
    ((newHeartbeatState (-5)).Observe false).1.restart = true := by
  have h := heartbeat_healthy_and_threshold_coercion
  have h2 := h.2 (-5) (by decide)
  refine ⟨h2.1, ?_, h2.2⟩
  have h3 := (h.1 (heartbeatState.mk 3 2)).1
  simpa using h3

/-! ## Broadcaster (C3, C8, C10) -/

theorem broadcast_effective (b : Broadcaster) (now : Int)
    (h : b.debounceTime ≤ now - b.lastBroadcast) :
    b.Broadcast now =
      ({ b with lastBroadcast := now, listeners := b.listeners.map (fun l => (l.1, true)) },
       (b.listeners.filter (fun l => !l.2)).map (fun l => l.1)) := by
  unfold Broadcaster.Broadcast
  rw [if_neg (by omega)]

theorem broadcast_debounced (b : Broadcaster) (now : Int)
    (h : now - b.lastBroadcast < b.debounceTime) :
    b.Broadcast now = (b, []) := by
  unfold Broadcaster.Broadcast
  rw [if_pos h]

/-- C3: with a single subscribed listener that drains its mailbox after each
delivery, a first effective Broadcast followed within the 50 ms window by a
second Broadcast delivers exactly one signal and the second call changes no
state; two calls separated by more than the window deliver exactly two
signals. -/
theorem broadcaster_debounce_window (c n : Nat) (last t1 t2 : Int)
    (h1 : 50 ≤ t1 - last) :
    ((singleListener c n last).Broadcast t1).2 = [c] ∧
    (t2 - t1 < 50 →
      ((((singleListener c n last).Broadcast t1).1.drain c).1.Broadcast t2) =
        ((((singleListener c n last).Broadcast t1).1.drain c).1, [])) ∧
    (50 < t2 - t1 →
      ((((singleListener c n last).Broadcast t1).1.drain c).1.Broadcast t2).2 = [c]) := by
  have hb1 : (singleListener c n last).Broadcast t1 =
      ({ listeners := [(c, true)], nextId := n, lastBroadcast := t1, debounceTime := 50 },
       [c]) := by
    rw [broadcast_effective _ _ (by simpa [singleListener] using h1)]
    simp [singleListener]
  have hdrain : (((singleListener c n last).Broadcast t1).1.drain c).1 =
      { listeners := [(c, false)], nextId := n, lastBroadcast := t1, debounceTime := 50 } := by
    rw [hb1]
    simp [Broadcaster.drain]
  refine ⟨by rw [hb1], ?_, ?_⟩
  · intro ht
    rw [hdrain]
    exact broadcast_debounced _ _ (by simpa using ht)
  · intro ht
    rw [hdrain, broadcast_effective _ _ (by simpa using (by omega : (50 : Int) ≤ t2 - t1))]
    simp

/-- Witness for C3 with c = 0, last = 0, t1 = 100: the second call at 130
(inside the window) is absorbed, while a second call at 200 (outside the
window) delivers again. -/
theorem broadcaster_debounce_window_witness :
    ((singleListener 0 1 0).Broadcast 100).2 = [0] ∧
    ((((singleListener 0 1 0).Broadcast 100).1.drain 0).1.Broadcast 130) =
      ((((singleListener 0 1 0).Broadcast 100).1.drain 0).1, []) ∧
    ((((singleListener 0 1 0).Broadcast 100).1.drain 0).1.Broadcast 200).2 = [0] := by
  have h := broadcaster_debounce_window 0 1 0 100 130 (by decide)
  have h2 := broadcaster_debounce_window 0 1 0 100 200 (by decide)
  exact ⟨h.1, h.2.1 (by decide), h2.2.2 (by decide)⟩

theorem not_registered_after_unsubscribe (b : Broadcaster) (ch : Nat) :
    (b.Unsubscribe ch).registered ch = false := by
  unfold Broadcaster.Unsubscribe
  by_cases h : b.registered ch
  · rw [if_pos h]
    unfold Broadcaster.registered at *
    dsimp only
    simp only [List.any_eq_true, List.mem_filter, decide_eq_true_eq, Bool.not_eq_true] at *
    rw [Bool.eq_false_iff]
    intro hcon
    simp only [List.any_eq_true, List.mem_filter, decide_eq_true_eq] at hcon
    obtain ⟨x, ⟨_, hne⟩, hx⟩ := hcon
    rw [hx] at hne
    simp at hne
  · rw [if_neg h]
    simpa using h

theorem length_filter_remove (ch : Nat) :
    ∀ l : List (Nat × Bool), (l.map Prod.fst).Nodup →
      l.length = (l.filter (fun x => x.1 ≠ ch)).length +
        (if l.any (fun x => x.1 = ch) then 1 else 0) := by
  intro l
  induction l with
  | nil => intro _; simp
  | cons x t ih =>
      intro hnd
      rw [List.map_cons, List.nodup_cons] at hnd
      obtain ⟨hx, hndt⟩ := hnd
      have hrec := ih hndt
      simp only [decide_not] at hrec ⊢
      by_cases hch : x.1 = ch
      · have hall : ∀ y ∈ t, ¬(y.1 = ch) := by
          intro y hy hcon
          exact hx (by rw [hch, ← hcon]; exact List.mem_map_of_mem Prod.fst hy)
        have ht : t.filter (fun y => !decide (y.1 = ch)) = t := by
          rw [List.filter_eq_self]
          intro y hy
          simpa using hall y hy
        have hta : (t.any fun y => decide (y.1 = ch)) = false := by
          rw [Bool.eq_false_iff]
          intro hcon
          simp only [List.any_eq_true, decide_eq_true_eq] at hcon
          obtain ⟨y, hy, hyc⟩ := hcon
          exact hall y hy hyc
        simp [List.filter_cons, List.any_cons, hch, ht, hta]
      · simp only [List.filter_cons, List.any_cons, List.length_cons]
        simp only [hch, decide_False, Bool.not_false, if_true, Bool.false_or,
          List.length_cons]
        omega

/-- C8: Unsubscribe is idempotent (a second Unsubscribe of the same channel is
a no-op, so it cannot panic by double-closing); an unregistered channel — in
particular one just unsubscribed — is never delivered to by Broadcast; and
ListenerCount tracks registrations: up by one on Subscribe, down by one on
Unsubscribe of a registered channel, unchanged otherwise. -/
theorem unsubscribe_idempotent_and_counts :
    (∀ (b : Broadcaster) (ch : Nat), (b.Unsubscribe ch).Unsubscribe ch = b.Unsubscribe ch) ∧
    (∀ (b : Broadcaster) (ch : Nat), (b.Unsubscribe ch).registered ch = false) ∧
    (∀ (b : Broadcaster) (ch : Nat) (now : Int),
      b.registered ch = false → ch ∉ (b.Broadcast now).2) ∧
    (∀ b : Broadcaster, b.Subscribe.2.ListenerCount = b.ListenerCount + 1) ∧
    (∀ (b : Broadcaster) (ch : Nat), (b.listeners.map Prod.fst).Nodup →
      b.ListenerCount = (b.Unsubscribe ch).ListenerCount +
        (if b.registered ch then 1 else 0)) := by
  refine ⟨?_, not_registered_after_unsubscribe, ?_, ?_, ?_⟩
  · intro b ch
    conv_lhs => rw [Broadcaster.Unsubscribe]
    rw [if_neg (by rw [not_registered_after_unsubscribe]; exact Bool.false_ne_true)]
  · intro b ch now hreg
    unfold Broadcaster.Broadcast
    split
    · simp
    · dsimp only
      intro hmem
      simp only [List.mem_map, List.mem_filter] at hmem
      obtain ⟨x, ⟨hxl, _⟩, hxc⟩ := hmem
      unfold Broadcaster.registered at hreg
      rw [Bool.eq_false_iff] at hreg
      exact hreg (by simp only [List.any_eq_true, decide_eq_true_eq]; exact ⟨x, hxl, hxc⟩)
  · intro b
    unfold Broadcaster.Subscribe Broadcaster.ListenerCount
    simp
  · intro b ch hnd
    unfold Broadcaster.Unsubscribe Broadcaster.ListenerCount
    by_cases h : b.registered ch
    · rw [if_pos h, if_pos h]
      dsimp only
      have := length_filter_remove ch b.listeners hnd
      unfold Broadcaster.registered at h
      rw [h] at this
      simpa using this
    · rw [if_neg h, if_neg h]
      simp

/-- Witness for C8: a concrete two-listener broadcaster; unsubscribing channel
1 twice equals unsubscribing once, channel 1 then receives nothing from a
Broadcast, and the count drops from 2 to 1. -/
theorem unsubscribe_idempotent_witness :
    ((Broadcaster.mk [(0, false), (1, false)] 2 0 50).Unsubscribe 1).Unsubscribe 1 =
      (Broadcaster.mk [(0, false), (1, false)] 2 0 50).Unsubscribe 1 ∧
    (((Broadcaster.mk [(0, false), (1, false)] 2 0 50).Unsubscribe 1).registered 1 = false) ∧
    (1 : Nat) ∉ (((Broadcaster.mk [(0, false), (1, false)] 2 0 50).Unsubscribe 1).Broadcast 100).2 ∧
    (Broadcaster.mk [(0, false), (1, false)] 2 0 50).ListenerCount =
      ((Broadcaster.mk [(0, false), (1, false)] 2 0 50).Unsubscribe 1).ListenerCount + 1 := by
  have h := unsubscribe_idempotent_and_counts
  refine ⟨h.1 _ 1, h.2.1 _ 1, h.2.2.1 _ 1 100 (h.2.1 _ 1), ?_⟩
  have h5 := h.2.2.2.2 (Broadcaster.mk [(0, false), (1, false)] 2 0 50) 1 (by decide)
  simpa using h5

/-- C10: a Broadcast outside the debounce window records its timestamp no
matter whether anything was delivered (no subscribers, or all mailboxes full),
so any second Broadcast within the window of the first is a complete no-op
delivering nothing. -/
theorem broadcast_records_timestamp (b : Broadcaster) (now : Int)
    (h : b.debounceTime ≤ now - b.lastBroadcast) :
    (b.Broadcast now).1.lastBroadcast = now ∧
    ∀ t2 : Int, t2 - now < b.debounceTime →
      (b.Broadcast now).1.Broadcast t2 = ((b.Broadcast now).1, []) := by
  rw [broadcast_effective b now h]
  refine ⟨rfl, ?_⟩
  intro t2 ht2
  exact broadcast_debounced _ _ (by simpa using ht2)

/-- Witness for C10: a broadcaster whose only mailbox is already full delivers
to nobody at time 100, yet still records the timestamp, making a second call at
120 a silent no-op. -/
theorem broadcast_records_timestamp_witness :
    ((Broadcaster.mk [(7, true)] 8 0 50).Broadcast 100).2 = [] ∧
    ((Broadcaster.mk [(7, true)] 8 0 50).Broadcast 100).1.lastBroadcast = 100 ∧
    ((Broadcaster.mk [(7, true)] 8 0 50).Broadcast 100).1.Broadcast 120 =
      (((Broadcaster.mk [(7, true)] 8 0 50).Broadcast 100).1, []) := by
  have h := broadcast_records_timestamp (Broadcaster.mk [(7, true)] 8 0 50) 100 (by decide)
  exact ⟨by decide, h.1, h.2 120 (by decide)⟩

/-! ## Upstream-unavailable fallback (C4) -/

set_option maxRecDepth 100000 in
/-- C4: when the proxied connection to the supervised process fails, the
synthetic response (modelled from the spec, section 4.4) carries status 503, an
HTML content type, a short human-readable message, and an embedded script that
reloads the page after a short delay. -/
theorem upstream_unavailable_fallback :
    upstreamUnavailableResponse.status = 503 ∧
    containsStr upstreamUnavailableResponse.contentType "text/html" = true ∧
    containsStr upstreamUnavailableResponse.body "App restarting..." = true ∧
    containsStr upstreamUnavailableResponse.body "window.location.reload()" = true ∧
    containsStr upstreamUnavailableResponse.body "setTimeout" = true := by
  refine ⟨rfl, ?_, ?_, ?_, ?_⟩ <;> decide

/-! ## Stylesheet href rewriting examples (C6) -/

set_option maxRecDepth 100000 in
/-- C6: the four specified href rewrites — rooted asset path, relative asset
path with its query preserved, external URL untouched, and a numeric
cache-buster segment stripped — plus the general fact that any absolute,
protocol-relative or data: URL is left unchanged. -/
theorem stylesheet_href_rewrite_examples :
    rewriteStylesheetHref ("/assets/css/style.css").toList =
      some ("/__shadowfax/assets/css/style.css").toList ∧
    rewriteStylesheetHref ("assets/css/style.css?v=1").toList =
      some ("/__shadowfax/assets/css/style.css?v=1").toList ∧
    rewriteStylesheetHref ("https://cdn.example.com/style.css").toList = none ∧
    rewriteStylesheetHref ("/assets/css/1770715671/style.css").toList =
      some ("/__shadowfax/assets/css/style.css").toList ∧
    (∀ href : List Char,
      (("http://").toList.isPrefixOf (toLowerL href) ||
       ("https://").toList.isPrefixOf (toLowerL href) ||
       ("//").toList.isPrefixOf (toLowerL href) ||
       ("data:").toList.isPrefixOf (toLowerL href)) = true →
      rewriteStylesheetHref href = none) := by
  refine ⟨by decide, by decide, by decide, by decide, ?_⟩
  intro href h
  unfold rewriteStylesheetHref
  rw [if_pos h]

set_option maxRecDepth 100000 in
/-- Witness for C6: a protocol-relative URL is left unchanged. -/
theorem stylesheet_href_rewrite_examples_witness :
    rewriteStylesheetHref ("//cdn.example.com/style.css").toList = none :=
  stylesheet_href_rewrite_examples.2.2.2.2 _ (by decide)

/-! ## Script injection (C7) -/

theorem firstIdxOf_spec_some (pat : List Char) :
    ∀ (s : List Char) (i : Nat), firstIdxOf pat s = some i →
      pat.isPrefixOf (s.drop i) = true ∧
      ∀ j, pat.isPrefixOf (s.drop j) = true → i ≤ j := by
  intro s
  induction s with
  | nil =>
      intro i h
      unfold firstIdxOf at h
      split at h
      · rename_i hemp
        obtain rfl : i = 0 := by injection h with h; omega
        refine ⟨?_, fun j _ => Nat.zero_le j⟩
        simp_all [List.isEmpty_iff]
      · exact absurd h (by simp)
  | cons c rest ih =>
      intro i h
      unfold firstIdxOf at h
      split at h
      · rename_i hpre
        obtain rfl : i = 0 := by injection h with h; omega
        exact ⟨hpre, fun j _ => Nat.zero_le j⟩
      · rename_i hpre
        obtain ⟨i0, hi0, rfl⟩ : ∃ i0, firstIdxOf pat rest = some i0 ∧ i0 + 1 = i := by
          cases hr : firstIdxOf pat rest with
          | none => rw [hr] at h; exact absurd h (by simp)
          | some i0 =>
              rw [hr] at h
              exact ⟨i0, rfl, by injection h⟩
        obtain ⟨h1, h2⟩ := ih i0 hi0
        refine ⟨by simpa using h1, ?_⟩
        intro j hj
        cases j with
        | zero => exact absurd (by simpa using hj) hpre
        | succ k => exact Nat.succ_le_succ (h2 k (by simpa using hj))

theorem firstIdxOf_spec_none (pat : List Char) :
    ∀ s : List Char, firstIdxOf pat s = none →
      ∀ j, pat.isPrefixOf (s.drop j) = false := by
  intro s
  induction s with
  | nil =>
      intro h j
      unfold firstIdxOf at h
      split at h
      · exact absurd h (by simp)
      · rename_i hemp
        cases pat with
        | nil => simp [List.isEmpty] at hemp
        | cons p ps => simp [List.isPrefixOf]
  | cons c rest ih =>
      intro h j
      unfold firstIdxOf at h
      split at h
      · exact absurd h (by simp)
      · rename_i hpre
        have hr : firstIdxOf pat rest = none := by
          cases hr : firstIdxOf pat rest with
          | none => rfl
          | some i0 => rw [hr] at h; exact absurd h (by simp)
        cases j with
        | zero => simpa using Bool.eq_false_iff.mpr hpre
        | succ k => simpa using ih hr k

theorem toLowerL_drop (s : List Char) (i : Nat) :
    toLowerL (s.drop i) = (toLowerL s).drop i := by
  simp [toLowerL, List.map_drop]

/-- C7: the reload client script is inserted immediately before the first
(case-insensitive) closing head tag when one exists; otherwise immediately
before the first closing body tag when one exists; otherwise appended at the
end of the content. -/
theorem inject_script_placement (content : List Char) :
    (containsL (toLowerL content) headTagL = true →
      ∃ pre post, content = pre ++ post ∧
        headTagL.isPrefixOf (toLowerL post) = true ∧
        (∀ j, headTagL.isPrefixOf ((toLowerL content).drop j) = true → pre.length ≤ j) ∧
        InjectScript content = pre ++ hotReloadScriptL ++ post) ∧
    (containsL (toLowerL content) headTagL = false →
      containsL (toLowerL content) bodyTagL = true →
      ∃ pre post, content = pre ++ post ∧
        bodyTagL.isPrefixOf (toLowerL post) = true ∧
        (∀ j, bodyTagL.isPrefixOf ((toLowerL content).drop j) = true → pre.length ≤ j) ∧
        InjectScript content = pre ++ hotReloadScriptL ++ post) ∧
    (containsL (toLowerL content) headTagL = false →
      containsL (toLowerL content) bodyTagL = false →
      InjectScript content = content ++ hotReloadScriptL) := by
  refine ⟨?_, ?_, ?_⟩
  · intro hhead
    obtain ⟨i, hi⟩ : ∃ i, firstIdxOf headTagL (toLowerL content) = some i := by
      unfold containsL at hhead
      cases h : firstIdxOf headTagL (toLowerL content) with
      | none => rw [h] at hhead; simp at hhead
      | some i => exact ⟨i, rfl⟩
    obtain ⟨h1, h2⟩ := firstIdxOf_spec_some _ _ _ hi
    refine ⟨content.take i, content.drop i, (List.take_append_drop i content).symm,
      ?_, ?_, ?_⟩
    · rw [toLowerL_drop]; exact h1
    · intro j hj
      calc (content.take i).length ≤ i := by simp [List.length_take]
        _ ≤ j := h2 j hj
    · unfold InjectScript
      rw [hi]
  · intro hhead hbody
    have hnone : firstIdxOf headTagL (toLowerL content) = none := by
      unfold containsL at hhead
      cases h : firstIdxOf headTagL (toLowerL content) with
      | none => rfl
      | some i => rw [h] at hhead; simp at hhead
    obtain ⟨i, hi⟩ : ∃ i, firstIdxOf bodyTagL (toLowerL content) = some i := by
      unfold containsL at hbody
      cases h : firstIdxOf bodyTagL (toLowerL content) with
      | none => rw [h] at hbody; simp at hbody
      | some i => exact ⟨i, rfl⟩
    obtain ⟨h1, h2⟩ := firstIdxOf_spec_some _ _ _ hi
    refine ⟨content.take i, content.drop i, (List.take_append_drop i content).symm,
      ?_, ?_, ?_⟩
    · rw [toLowerL_drop]; exact h1
    · intro j hj
      calc (content.take i).length ≤ i := by simp [List.length_take]
        _ ≤ j := h2 j hj
    · unfold InjectScript
      rw [hnone, hi]
  · intro hhead hbody
    have hnone : firstIdxOf headTagL (toLowerL content) = none := by
      unfold containsL at hhead
      cases h : firstIdxOf headTagL (toLowerL content) with
      | none => rfl
      | some i => rw [h] at hhead; simp at hhead
    have hnone2 : firstIdxOf bodyTagL (toLowerL content) = none := by
      unfold containsL at hbody
      cases h : firstIdxOf bodyTagL (toLowerL content) with
      | none => rfl
      | some i => rw [h] at hbody; simp at hbody
    unfold InjectScript
    rw [hnone, hnone2]

/-- Witness for C7: a page with a head tag gets the script before it; a page
with neither tag gets it appended. -/
theorem inject_script_placement_witness :
    (∃ pre post, ("<html><head></head><body>x</body></html>").toList = pre ++ post ∧
      headTagL.isPrefixOf (toLowerL post) = true ∧
      (∀ j, headTagL.isPrefixOf
        ((toLowerL ("<html><head></head><body>x</body></html>").toList).drop j) = true →
        pre.length ≤ j) ∧
      InjectScript ("<html><head></head><body>x</body></html>").toList =
        pre ++ hotReloadScriptL ++ post) ∧
    InjectScript ("<p>x</p>").toList = ("<p>x</p>").toList ++ hotReloadScriptL :=
  ⟨(inject_script_placement _).1 (by decide),
   (inject_script_placement _).2.2 (by decide) (by decide)⟩

/-! ## Stylesheet rewriting idempotence (C9) -/

set_option maxRecDepth 1000000 in
/-- C9 counterexample: applying `RewriteStylesheetHrefs` twice does not always
equal applying it once. In this tag the href value also occurs earlier in the
tag (inside the title attribute), and `strings.Replace(tag, href, rewritten, 1)`
rewrites the first occurrence, so the second application rewrites the title
again. -/
theorem rewrite_hrefs_not_idempotent :
    RewriteStylesheetHrefs (RewriteStylesheetHrefs
      ("<link title=\"assets/x.css\" rel=\"stylesheet\" href=\"assets/x.css\">").toList) ≠
    RewriteStylesheetHrefs
      ("<link title=\"assets/x.css\" rel=\"stylesheet\" href=\"assets/x.css\">").toList := by
  decide

theorem normalize_slash_underscore (ys : List Char) :
    normalizeAssetPathForRewrite (trimPrefixL ("./").toList ('/' :: '_' :: ys)) =
      '/' :: '_' :: ys := rfl

theorem slashAssets_not_prefix_underscore (ys : List Char) :
    slashAssetsPre.isPrefixOf ('/' :: '_' :: ys) = false := rfl

theorem assets_not_prefix_slash (ys : List Char) :
    assetsPre.isPrefixOf ('/' :: '_' :: ys) = false := rfl

theorem rewrite_none_of_slash_underscore (xs : List Char) :
    rewriteStylesheetHref ('/' :: '_' :: xs) = none := by
  have h1 : Char.toLower '/' = '/' := by decide
  have h2 : Char.toLower '_' = '_' := by decide
  have hlow : toLowerL ('/' :: '_' :: xs) = '/' :: '_' :: toLowerL xs := by
    simp [toLowerL, h1, h2]
  have hc : (("http://").toList.isPrefixOf ('/' :: '_' :: toLowerL xs) ||
      ("https://").toList.isPrefixOf ('/' :: '_' :: toLowerL xs) ||
      ("//").toList.isPrefixOf ('/' :: '_' :: toLowerL xs) ||
      ("data:").toList.isPrefixOf ('/' :: '_' :: toLowerL xs)) = false := rfl
  simp only [rewriteStylesheetHref]
  rw [hlow, hc, if_neg Bool.false_ne_true]
  cases hcut : indexAnyL ['?', '#'] ('/' :: '_' :: xs) with
  | none =>
      simp only
      rw [if_neg (by simp : ¬('/' :: '_' :: xs = []))]
      rw [normalize_slash_underscore]
      by_cases hs : shadowAssetsPre.isPrefixOf ('/' :: '_' :: xs) = true
      · rw [if_pos hs]
      · rw [if_neg hs, slashAssets_not_prefix_underscore, if_neg Bool.false_ne_true,
          assets_not_prefix_slash, if_neg Bool.false_ne_true]
  | some i =>
      simp only
      match i with
      | 0 => rfl
      | 1 => rfl
      | n + 2 =>
          simp only [List.take_succ_cons]
          rw [if_neg (by simp : ¬('/' :: '_' :: List.take n xs = []))]
          rw [normalize_slash_underscore]
          by_cases hs : shadowAssetsPre.isPrefixOf ('/' :: '_' :: List.take n xs) = true
          · rw [if_pos hs]
          · rw [if_neg hs, slashAssets_not_prefix_underscore, if_neg Bool.false_ne_true,
              assets_not_prefix_slash, if_neg Bool.false_ne_true]


theorem prefix_build1 (n s t : List Char) (h : slashAssetsPre ++ t = n) :
    shadowAssetsPre.isPrefixOf (("/__shadowfax").toList ++ n ++ s) = true := by
  rw [List.isPrefixOf_iff_prefix]
  refine ⟨t ++ s, ?_⟩
  rw [← h, show shadowAssetsPre = ("/__shadowfax").toList ++ slashAssetsPre from rfl]
  simp [List.append_assoc]

theorem prefix_build2 (n s t : List Char) (h : assetsPre ++ t = n) :
    shadowAssetsPre.isPrefixOf (("/__shadowfax/").toList ++ n ++ s) = true := by
  rw [List.isPrefixOf_iff_prefix]
  refine ⟨t ++ s, ?_⟩
  rw [← h, show shadowAssetsPre = ("/__shadowfax/").toList ++ assetsPre from rfl]
  simp [List.append_assoc]

theorem rewrite_some_shadow_prefix (href r : List Char)
    (h : rewriteStylesheetHref href = some r) :
    shadowAssetsPre.isPrefixOf r = true := by
  simp only [rewriteStylesheetHref] at h
  split at h
  · exact absurd h (by simp)
  · split at h
    · exact absurd h (by simp)
    · split at h
      · exact absurd h (by simp)
      · split at h
        · rename_i hpre
          injection h with h
          subst h
          rw [List.isPrefixOf_iff_prefix] at hpre
          obtain ⟨t, ht⟩ := hpre
          exact prefix_build1 _ _ t ht
        · split at h
          · rename_i hpre
            injection h with h
            subst h
            rw [List.isPrefixOf_iff_prefix] at hpre
            obtain ⟨t, ht⟩ := hpre
            exact prefix_build2 _ _ t ht
          · exact absurd h (by simp)

/-- C9 amended: rewriting is idempotent at the href level — every href that
`rewriteStylesheetHref` produces begins with `/__shadowfax/assets/`, and such
an href is never rewritten again. (Content-level idempotence of
`RewriteStylesheetHrefs` fails, see the counterexample: `strings.Replace`
substitutes the first occurrence of the href value in the tag, which can lie
outside the href attribute.) -/
theorem rewrite_href_level_idempotent (href r : List Char)
    (h : rewriteStylesheetHref href = some r) :
    shadowAssetsPre.isPrefixOf r = true ∧ rewriteStylesheetHref r = none := by
  have hp := rewrite_some_shadow_prefix href r h
  refine ⟨hp, ?_⟩
  rw [List.isPrefixOf_iff_prefix] at hp
  obtain ⟨t, ht⟩ := hp
  have hr : r = '/' :: '_' :: (("_shadowfax/assets/").toList ++ t) := by
    rw [← ht]; rfl
  rw [hr]
  exact rewrite_none_of_slash_underscore _

set_option maxRecDepth 1000000 in
/-- Witness for the amended C9: rewriting `/assets/a.css` yields
`/__shadowfax/assets/a.css`, which starts with the local-assets prefix and is
not rewritten again. -/
theorem rewrite_href_level_idempotent_witness :
    shadowAssetsPre.isPrefixOf ("/__shadowfax/assets/a.css").toList = true ∧
    rewriteStylesheetHref ("/__shadowfax/assets/a.css").toList = none :=
  rewrite_href_level_idempotent ("/assets/a.css").toList
    ("/__shadowfax/assets/a.css").toList (by decide)

/-! ## Local asset resolution stays within the assets root (C5) -/

theorem cleanStep_no_dotdot (acc : List (List Char)) (s : List Char)
    (h : ∀ x ∈ acc, x ≠ ['.', '.']) : ∀ x ∈ cleanStep acc s, x ≠ ['.', '.'] := by
  unfold cleanStep
  split
  · exact h
  · split
    · intro x hx
      exact h x ((List.dropLast_sublist acc).subset hx)
    · rename_i h1 h2
      intro x hx
      rw [List.mem_append] at hx
      rcases hx with hx | hx
      · exact h x hx
      · simp only [List.mem_singleton] at hx
        subst hx
        exact h2

theorem cleanAbsSegs_no_dotdot (segs : List (List Char)) :
    ∀ x ∈ cleanAbsSegs segs, x ≠ ['.', '.'] := by
  suffices hgen : ∀ acc, (∀ x ∈ acc, x ≠ ['.', '.']) →
      ∀ x ∈ segs.foldl cleanStep acc, x ≠ ['.', '.'] by
    exact hgen [] (by simp)
  induction segs with
  | nil => intro acc h; simpa using h
  | cons s t ih =>
      intro acc h
      rw [List.foldl_cons]
      exact ih _ (cleanStep_no_dotdot acc s h)

theorem relSegs_head_prefix : ∀ (base targ : List (List Char)),
    (∀ x ∈ targ, x ≠ ['.', '.']) →
    (relSegs base targ).head? ≠ some ['.', '.'] → base <+: targ := by
  intro base
  induction base with
  | nil => intro targ _ _; exact List.nil_prefix
  | cons b bs ih =>
      intro targ ht hh
      cases targ with
      | nil =>
          exfalso
          apply hh
          simp [relSegs, List.replicate_succ]
      | cons t ts =>
          unfold relSegs at hh
          by_cases hbt : b = t
          · rw [if_pos hbt] at hh
            rw [List.cons_prefix_cons]
            exact ⟨hbt, ih ts (fun x hx => ht x (List.mem_cons_of_mem _ hx)) hh⟩
          · rw [if_neg hbt] at hh
            exfalso
            apply hh
            simp [List.replicate_succ]

set_option maxRecDepth 1000000 in
/-- C5: local asset resolution only ever returns a path inside the assets root:
whenever `resolveLocalAssetPath` succeeds, the cleaned assets root is a segment
prefix of the returned path, for every filesystem and every requested path
(including paths with `..` segments); and the concrete traversal request
`../../etc/passwd` is rejected no matter what the filesystem contains. -/
theorem resolve_local_asset_within_root :
    (∀ (stat : List (List Char) → Option Bool) (root : List (List Char))
        (req : List Char) (p : List (List Char)),
      resolveLocalAssetPath stat root req = some p →
      cleanAbsSegs (root ++ [assetsSeg]) <+: p) ∧
    (∀ stat : List (List Char) → Option Bool,
      resolveLocalAssetPath stat [("home").toList, ("proj").toList]
        ("../../etc/passwd").toList = none) := by
  constructor
  · intro stat root req p h
    simp only [resolveLocalAssetPath] at h
    obtain ⟨cand, _, hf⟩ := List.exists_of_findSome?_eq_some h
    split at hf
    · exact absurd hf (by simp)
    · rename_i hrel
      split at hf
      · rename_i heq
        injection hf with hf
        subst hf
        exact relSegs_head_prefix _ _ (cleanAbsSegs_no_dotdot _) hrel
      · exact absurd hf (by simp)
  · intro stat
    rfl

set_option maxRecDepth 1000000 in
/-- Witness for C5: with a filesystem containing `home/proj/assets/css/app.css`,
the request `css/app.css` resolves to a path under the assets root. -/
theorem resolve_local_asset_within_root_witness :
    cleanAbsSegs ([("home").toList, ("proj").toList] ++ [assetsSeg]) <+:
      [("home").toList, ("proj").toList, ("assets").toList, ("css").toList,
        ("app.css").toList] :=
  resolve_local_asset_within_root.1
    (fun q =>
      if q = [("home").toList, ("proj").toList, ("assets").toList, ("css").toList,
          ("app.css").toList] then some false else none)
    [("home").toList, ("proj").toList] ("css/app.css").toList _ (by decide)
